import Mathlib

/-!
Shallow embedding of the dice-notation scanner (`src/token.rs`).

The Rust scanner walks a `Peekable<Chars>` cursor with two mutable
position counters (`current_line`, `current_column`).  We model the
cursor as a `List Char` and thread the counters explicitly: each call
returns the result together with the remaining input and the updated
line and column.
-/

set_option maxRecDepth 10000

/-- Rust `char::is_ascii_digit`: `'0' ..= '9'`. -/
def is_ascii_digit (c : Char) : Bool :=
  '0' ≤ c && c ≤ '9'

/-- Rust `char::is_ascii_alphabetic`: `'A' ..= 'Z'` or `'a' ..= 'z'`. -/
def is_ascii_alphabetic (c : Char) : Bool :=
  ('A' ≤ c && c ≤ 'Z') || ('a' ≤ c && c ≤ 'z')

/-- `is_keyword_character` from `src/token.rs`: ASCII letter or underscore. -/
def is_keyword_character (c : Char) : Bool :=
  is_ascii_alphabetic c || c = '_'

/-- `OperatorTokenType` from `src/token.rs`. -/
inductive OperatorTokenType : Type
  | LeftParen
  | RightParen
  | LeftBrace
  | RightBrace
  | Plus
  | Minus
  | Star
  | Slash
  | Dot
  | Bang
  | Eof
  deriving DecidableEq, Repr

/-- `LiteralTokenType` from `src/token.rs`.  The `Int` payload is the
Rust `i32` value, represented as an integer (the scanner only produces
it when the parse into `i32` succeeded). -/
inductive LiteralTokenType : Type
  | Int (n : Int)
  | Die (long : Bool)
  | Unrecognized (s : String)
  deriving DecidableEq, Repr

/-- `TokenType` from `src/token.rs`: two-level union of operators and literals. -/
inductive TokenType : Type
  | Operator (op : OperatorTokenType)
  | Literal (lit : LiteralTokenType)
  deriving DecidableEq, Repr

/-- `Token` from `src/token.rs`. -/
structure Token : Type where
  token_type : TokenType
  line : Nat
  column : Nat
  deriving DecidableEq, Repr

/-- `TokenError` from `src/token.rs`. -/
inductive TokenError : Type
  | UnsupportedToken (s : String)
  | InvalidNumberToken (s : String)
  deriving DecidableEq, Repr

/-- Numeric value of a list of ASCII digit characters (most significant first). -/
def digits_value (l : List Char) : Nat :=
  l.foldl (fun acc c => acc * 10 + (c.toNat - 48)) 0

/-- Rust `str::parse::<i32>()` restricted to the strings the scanner feeds it:
nonempty, all ASCII digits (no sign).  Such a parse succeeds exactly when the
value fits below `i32::MAX = 2147483647`, and returns the value. -/
def parse_i32 (l : List Char) : Option Int :=
  if digits_value l ≤ 2147483647 then some (Int.ofNat (digits_value l)) else none

/-- `read_token` from `src/token.rs`.

The Rust function loops `while let Some(next_char) = input.next()`.  Space
produces no token and falls through to `*current_column += 1`; newline bumps
the line, sets the column to `0`, and then the shared `+= 1` makes it `1`.
Single-character operators build a token at the current position and then the
column advances.  A digit run records `starting_column`, greedily consumes
further digits (advancing the column for each), and parses; on parse failure
it returns the error *before* the shared column increment.  An alphabetic run
likewise records its start, greedily consumes keyword characters
(letters/underscore), and classifies `"d"`, `"die"`, or `Unrecognized`.
Any other character returns `UnsupportedToken` immediately, also skipping the
shared column increment.  An exhausted input yields the `Eof` token. -/
def read_token : List Char → Nat → Nat →
    Except TokenError Token × List Char × Nat × Nat
  | [], line, col =>
    (Except.ok ⟨TokenType.Operator OperatorTokenType.Eof, line, col⟩, [], line, col)
  | c :: rest, line, col =>
    if c = ' ' then
      read_token rest line (col + 1)
    else if c = '\n' then
      read_token rest (line + 1) (0 + 1)
    else if c = '(' then
      (Except.ok ⟨TokenType.Operator OperatorTokenType.LeftParen, line, col⟩, rest, line, col + 1)
    else if c = ')' then
      (Except.ok ⟨TokenType.Operator OperatorTokenType.RightParen, line, col⟩, rest, line, col + 1)
    else if c = '{' then
      (Except.ok ⟨TokenType.Operator OperatorTokenType.LeftBrace, line, col⟩, rest, line, col + 1)
    else if c = '}' then
      (Except.ok ⟨TokenType.Operator OperatorTokenType.RightBrace, line, col⟩, rest, line, col + 1)
    else if c = '+' then
      (Except.ok ⟨TokenType.Operator OperatorTokenType.Plus, line, col⟩, rest, line, col + 1)
    else if c = '-' then
      (Except.ok ⟨TokenType.Operator OperatorTokenType.Minus, line, col⟩, rest, line, col + 1)
    else if c = '*' then
      (Except.ok ⟨TokenType.Operator OperatorTokenType.Star, line, col⟩, rest, line, col + 1)
    else if c = '/' then
      (Except.ok ⟨TokenType.Operator OperatorTokenType.Slash, line, col⟩, rest, line, col + 1)
    else if c = '.' then
      (Except.ok ⟨TokenType.Operator OperatorTokenType.Dot, line, col⟩, rest, line, col + 1)
    else if c = '!' then
      (Except.ok ⟨TokenType.Operator OperatorTokenType.Bang, line, col⟩, rest, line, col + 1)
    else if is_ascii_digit c then
      let run := rest.takeWhile is_ascii_digit
      let rest2 := rest.dropWhile is_ascii_digit
      let n := c :: run
      match parse_i32 n with
      | some v =>
        (Except.ok ⟨TokenType.Literal (LiteralTokenType.Int v), line, col⟩,
          rest2, line, col + run.length + 1)
      | none =>
        (Except.error (TokenError.InvalidNumberToken (String.mk n)),
          rest2, line, col + run.length)
    else if is_ascii_alphabetic c then
      let run := rest.takeWhile is_keyword_character
      let rest2 := rest.dropWhile is_keyword_character
      let literal := String.mk (c :: run)
      if literal = "d" then
        (Except.ok ⟨TokenType.Literal (LiteralTokenType.Die false), line, col⟩,
          rest2, line, col + run.length + 1)
      else if literal = "die" then
        (Except.ok ⟨TokenType.Literal (LiteralTokenType.Die true), line, col⟩,
          rest2, line, col + run.length + 1)
      else
        (Except.ok ⟨TokenType.Literal (LiteralTokenType.Unrecognized literal), line, col⟩,
          rest2, line, col + run.length + 1)
    else
      (Except.error (TokenError.UnsupportedToken (String.mk [c])), rest, line, col)

/-- The driver loop of the tests in `src/token.rs`: while the cursor still has
characters, call `read_token` and collect the tokens; stop on the first error.
Each call on a nonempty input consumes at least one character, so fuel equal to
the input length always suffices (`drain_go_complete` below); `none` marks fuel
exhaustion and is never returned on adequate fuel. -/
def drain_go : Nat → List Char → Nat → Nat →
    Option (Except TokenError (List Token))
  | _, [], _, _ => some (Except.ok [])
  | 0, _ :: _, _, _ => none
  | fuel + 1, c :: rest, line, col =>
    match read_token (c :: rest) line col with
    | (Except.ok tok, rest2, line2, col2) =>
      match drain_go fuel rest2 line2 col2 with
      | some (Except.ok toks) => some (Except.ok (tok :: toks))
      | r => r
    | (Except.error e, _, _, _) => some (Except.error e)

/-- Drain the scanner over a whole input, as the tests do, starting from a
given line and column. -/
def drain_tokens (input : List Char) (line col : Nat) :
    Option (Except TokenError (List Token)) :=
  drain_go input.length input line col

/-! ### Helper lemmas -/

/-- Two characters differ when a Boolean predicate separates them. -/
theorem pred_ne {p : Char → Bool} {c d : Char} (h : p c = true) (hd : p d = false) :
    c ≠ d :=
  fun e => by rw [e, hd] at h; cases h

/-- An ASCII letter is not an ASCII digit. -/
theorem alpha_not_digit {c : Char} (h : is_ascii_alphabetic c = true) :
    is_ascii_digit c = false := by
  simp only [is_ascii_alphabetic, Bool.or_eq_true, Bool.and_eq_true, decide_eq_true_eq] at h
  simp only [is_ascii_digit, Bool.and_eq_false_iff, decide_eq_false_iff_not]
  rcases h with ⟨h1, _⟩ | ⟨h1, _⟩
  · right
    intro hle
    exact absurd (le_trans h1 hle) (by decide)
  · right
    intro hle
    exact absurd (le_trans h1 hle) (by decide)

/-- `String.mk` is injective. -/
theorem string_mk_inj_iff (l l' : List Char) : String.mk l = String.mk l' ↔ l = l' := by
  constructor
  · intro h; injection h
  · intro h; rw [h]

/-- `takeWhile` and `dropWhile` split an append at the first failing element. -/
theorem takeWhile_dropWhile_append {p : Char → Bool} :
    ∀ (run rest : List Char), (∀ x ∈ run, p x = true) →
      (∀ y, rest.head? = some y → p y = false) →
      (run ++ rest).takeWhile p = run ∧ (run ++ rest).dropWhile p = rest := by
  intro run
  induction run with
  | nil =>
    intro rest _ hrest
    cases rest with
    | nil => exact ⟨rfl, rfl⟩
    | cons y t =>
      have hy : p y = false := hrest y rfl
      constructor
      · simp [List.takeWhile_cons_of_neg, hy]
      · simp [List.dropWhile_cons_of_neg, hy]
  | cons x xs ih =>
    intro rest hrun hrest
    have hx : p x = true := hrun x (List.mem_cons_self x xs)
    have hxs : ∀ y ∈ xs, p y = true := fun y hy => hrun y (List.mem_cons_of_mem x hy)
    obtain ⟨h1, h2⟩ := ih rest hxs hrest
    constructor
    · simpa [List.takeWhile_cons_of_pos hx] using h1
    · simpa [List.dropWhile_cons_of_pos hx] using h2

/-- Unfolding `read_token` when the first character is an ASCII digit. -/
theorem read_token_digit (c : Char) (rest : List Char) (line col : Nat)
    (h : is_ascii_digit c = true) :
    read_token (c :: rest) line col =
      match parse_i32 (c :: rest.takeWhile is_ascii_digit) with
      | some v =>
        (Except.ok ⟨TokenType.Literal (LiteralTokenType.Int v), line, col⟩,
          rest.dropWhile is_ascii_digit, line,
          col + (rest.takeWhile is_ascii_digit).length + 1)
      | none =>
        (Except.error (TokenError.InvalidNumberToken
            (String.mk (c :: rest.takeWhile is_ascii_digit))),
          rest.dropWhile is_ascii_digit, line,
          col + (rest.takeWhile is_ascii_digit).length) := by
  simp only [read_token]
  rw [if_neg (pred_ne h (by decide)), if_neg (pred_ne h (by decide)),
    if_neg (pred_ne h (by decide)), if_neg (pred_ne h (by decide)),
    if_neg (pred_ne h (by decide)), if_neg (pred_ne h (by decide)),
    if_neg (pred_ne h (by decide)), if_neg (pred_ne h (by decide)),
    if_neg (pred_ne h (by decide)), if_neg (pred_ne h (by decide)),
    if_neg (pred_ne h (by decide)), if_neg (pred_ne h (by decide)),
    if_pos h]

/-- Unfolding `read_token` when the first character is an ASCII letter. -/
theorem read_token_alpha (c : Char) (rest : List Char) (line col : Nat)
    (h : is_ascii_alphabetic c = true) :
    read_token (c :: rest) line col =
      (Except.ok ⟨TokenType.Literal
          (if String.mk (c :: rest.takeWhile is_keyword_character) = "d" then
            LiteralTokenType.Die false
          else if String.mk (c :: rest.takeWhile is_keyword_character) = "die" then
            LiteralTokenType.Die true
          else
            LiteralTokenType.Unrecognized
              (String.mk (c :: rest.takeWhile is_keyword_character))),
          line, col⟩,
        rest.dropWhile is_keyword_character, line,
        col + (rest.takeWhile is_keyword_character).length + 1) := by
  have hd : is_ascii_digit c = false := alpha_not_digit h
  have hne : ∀ d : Char, is_ascii_alphabetic d = false → c ≠ d :=
    fun d hdn => pred_ne h hdn
  simp only [read_token]
  rw [if_neg (hne ' ' (by decide)), if_neg (hne '\n' (by decide)),
    if_neg (hne '(' (by decide)), if_neg (hne ')' (by decide)),
    if_neg (hne '{' (by decide)), if_neg (hne '}' (by decide)),
    if_neg (hne '+' (by decide)), if_neg (hne '-' (by decide)),
    if_neg (hne '*' (by decide)), if_neg (hne '/' (by decide)),
    if_neg (hne '.' (by decide)), if_neg (hne '!' (by decide))]
  rw [if_neg (by rw [hd]; exact Bool.false_ne_true), if_pos h]
  split
  · rfl
  · split <;> rfl

/-- Unfolding `read_token` when the first character is unclassifiable: not
whitespace, not one of the ten single-character operators, not a digit, not a
letter.  The error is returned before the shared column increment, so the
column is unchanged, while the character itself has been consumed. -/
theorem read_token_other (c : Char) (rest : List Char) (line col : Nat)
    (hpunct : c ∉ [' ', '\n', '(', ')', '{', '}', '+', '-', '*', '/', '.', '!'])
    (hd : is_ascii_digit c = false) (ha : is_ascii_alphabetic c = false) :
    read_token (c :: rest) line col =
      (Except.error (TokenError.UnsupportedToken (String.mk [c])), rest, line, col) := by
  simp only [List.mem_cons, List.not_mem_nil, or_false, not_or] at hpunct
  obtain ⟨h1, h2, h3, h4, h5, h6, h7, h8, h9, h10, h11, h12⟩ := hpunct
  simp only [read_token]
  rw [if_neg h1, if_neg h2, if_neg h3, if_neg h4, if_neg h5, if_neg h6, if_neg h7,
    if_neg h8, if_neg h9, if_neg h10, if_neg h11, if_neg h12,
    if_neg (by rw [hd]; exact Bool.false_ne_true),
    if_neg (by rw [ha]; exact Bool.false_ne_true)]

/-- A space is skipped: no token, column advances. -/
theorem read_token_space (rest : List Char) (line col : Nat) :
    read_token (' ' :: rest) line col = read_token rest line (col + 1) := rfl

/-- A newline is skipped: line advances, column resets to zero and then the
shared increment makes it one. -/
theorem read_token_newline (rest : List Char) (line col : Nat) :
    read_token ('\n' :: rest) line col = read_token rest (line + 1) (0 + 1) := rfl

/-- On exhausted input `read_token` returns the `Eof` token at the current
position and leaves the state unchanged. -/
theorem read_token_nil (line col : Nat) :
    read_token [] line col =
      (Except.ok ⟨TokenType.Operator OperatorTokenType.Eof, line, col⟩, [], line, col) := rfl

/-- Scanning past a prefix of whitespace only moves the position counters. -/
theorem read_token_ws_skip :
    ∀ (ws : List Char) (line col : Nat) (input : List Char),
      (∀ x ∈ ws, x = ' ' ∨ x = '\n') →
      ∃ line2 col2, read_token (ws ++ input) line col = read_token input line2 col2 := by
  intro ws
  induction ws with
  | nil => exact fun line col input _ => ⟨line, col, rfl⟩
  | cons w t ih =>
    intro line col input hws
    have hw : w = ' ' ∨ w = '\n' := hws w (List.mem_cons_self w t)
    have ht : ∀ x ∈ t, x = ' ' ∨ x = '\n' := fun x hx => hws x (List.mem_cons_of_mem w hx)
    rcases hw with hw | hw
    · subst hw
      obtain ⟨l2, c2, heq⟩ := ih line (col + 1) input ht
      exact ⟨l2, c2, by rw [List.cons_append, read_token_space, heq]⟩
    · subst hw
      obtain ⟨l2, c2, heq⟩ := ih (line + 1) (0 + 1) input ht
      exact ⟨l2, c2, by rw [List.cons_append, read_token_newline, heq]⟩

/-- Single-character operator branches of `read_token`, one lemma each. -/
theorem read_token_lparen (rest : List Char) (line col : Nat) :
    read_token ('(' :: rest) line col =
      (Except.ok ⟨TokenType.Operator OperatorTokenType.LeftParen, line, col⟩, rest, line, col + 1) := rfl

/-- Right parenthesis branch of `read_token`. -/
theorem read_token_rparen (rest : List Char) (line col : Nat) :
    read_token (')' :: rest) line col =
      (Except.ok ⟨TokenType.Operator OperatorTokenType.RightParen, line, col⟩, rest, line, col + 1) := rfl

/-- Left brace branch of `read_token`. -/
theorem read_token_lbrace (rest : List Char) (line col : Nat) :
    read_token ('{' :: rest) line col =
      (Except.ok ⟨TokenType.Operator OperatorTokenType.LeftBrace, line, col⟩, rest, line, col + 1) := rfl

/-- Right brace branch of `read_token`. -/
theorem read_token_rbrace (rest : List Char) (line col : Nat) :
    read_token ('}' :: rest) line col =
      (Except.ok ⟨TokenType.Operator OperatorTokenType.RightBrace, line, col⟩, rest, line, col + 1) := rfl

/-- Plus branch of `read_token`. -/
theorem read_token_plus (rest : List Char) (line col : Nat) :
    read_token ('+' :: rest) line col =
      (Except.ok ⟨TokenType.Operator OperatorTokenType.Plus, line, col⟩, rest, line, col + 1) := rfl

/-- Minus branch of `read_token`: a `-` always becomes a `Minus` operator
token on its own, whatever follows it. -/
theorem read_token_minus (rest : List Char) (line col : Nat) :
    read_token ('-' :: rest) line col =
      (Except.ok ⟨TokenType.Operator OperatorTokenType.Minus, line, col⟩, rest, line, col + 1) := rfl

/-- Star branch of `read_token`. -/
theorem read_token_star (rest : List Char) (line col : Nat) :
    read_token ('*' :: rest) line col =
      (Except.ok ⟨TokenType.Operator OperatorTokenType.Star, line, col⟩, rest, line, col + 1) := rfl

/-- Slash branch of `read_token`. -/
theorem read_token_slash (rest : List Char) (line col : Nat) :
    read_token ('/' :: rest) line col =
      (Except.ok ⟨TokenType.Operator OperatorTokenType.Slash, line, col⟩, rest, line, col + 1) := rfl

/-- Dot branch of `read_token`. -/
theorem read_token_dot (rest : List Char) (line col : Nat) :
    read_token ('.' :: rest) line col =
      (Except.ok ⟨TokenType.Operator OperatorTokenType.Dot, line, col⟩, rest, line, col + 1) := rfl

/-- Bang branch of `read_token`. -/
theorem read_token_bang (rest : List Char) (line col : Nat) :
    read_token ('!' :: rest) line col =
      (Except.ok ⟨TokenType.Operator OperatorTokenType.Bang, line, col⟩, rest, line, col + 1) := rfl

/-- Every `read_token` call on a nonempty input consumes at least one
character: the remaining input is strictly shorter. -/
theorem read_token_shrinks :
    ∀ (input : List Char) (line col : Nat), input ≠ [] →
      ((read_token input line col).2.1).length < input.length := by
  intro input
  induction input with
  | nil => intro line col h; exact absurd rfl h
  | cons c rest ih =>
    intro line col _
    by_cases h1 : c = ' '
    · subst h1
      rw [read_token_space]
      cases rest with
      | nil => rw [read_token_nil]; exact Nat.zero_lt_succ _
      | cons y t => exact Nat.lt_trans (ih line (col + 1) (by simp)) (Nat.lt_succ_self _)
    by_cases h2 : c = '\n'
    · subst h2
      rw [read_token_newline]
      cases rest with
      | nil => rw [read_token_nil]; exact Nat.zero_lt_succ _
      | cons y t => exact Nat.lt_trans (ih (line + 1) (0 + 1) (by simp)) (Nat.lt_succ_self _)
    by_cases h3 : c = '('
    · subst h3; rw [read_token_lparen]; exact Nat.lt_succ_self _
    by_cases h4 : c = ')'
    · subst h4; rw [read_token_rparen]; exact Nat.lt_succ_self _
    by_cases h5 : c = '{'
    · subst h5; rw [read_token_lbrace]; exact Nat.lt_succ_self _
    by_cases h6 : c = '}'
    · subst h6; rw [read_token_rbrace]; exact Nat.lt_succ_self _
    by_cases h7 : c = '+'
    · subst h7; rw [read_token_plus]; exact Nat.lt_succ_self _
    by_cases h8 : c = '-'
    · subst h8; rw [read_token_minus]; exact Nat.lt_succ_self _
    by_cases h9 : c = '*'
    · subst h9; rw [read_token_star]; exact Nat.lt_succ_self _
    by_cases h10 : c = '/'
    · subst h10; rw [read_token_slash]; exact Nat.lt_succ_self _
    by_cases h11 : c = '.'
    · subst h11; rw [read_token_dot]; exact Nat.lt_succ_self _
    by_cases h12 : c = '!'
    · subst h12; rw [read_token_bang]; exact Nat.lt_succ_self _
    by_cases hd : is_ascii_digit c = true
    · rw [read_token_digit c rest line col hd]
      cases hp : parse_i32 (c :: rest.takeWhile is_ascii_digit) with
      | some v => exact Nat.lt_succ_of_le ((List.dropWhile_sublist _).length_le)
      | none => exact Nat.lt_succ_of_le ((List.dropWhile_sublist _).length_le)
    by_cases ha : is_ascii_alphabetic c = true
    · rw [read_token_alpha c rest line col ha]
      exact Nat.lt_succ_of_le ((List.dropWhile_sublist _).length_le)
    rw [read_token_other c rest line col
      (by simp [List.mem_cons, h1, h2, h3, h4, h5, h6, h7, h8, h9, h10, h11, h12])
      (Bool.eq_false_iff.mpr hd) (Bool.eq_false_iff.mpr ha)]
    exact Nat.lt_succ_self _

/-- With fuel at least the input length, the draining loop never runs out:
`drain_go` always reaches the end of the input or an error. -/
theorem drain_go_complete :
    ∀ (fuel : Nat) (input : List Char) (line col : Nat),
      input.length ≤ fuel → drain_go fuel input line col ≠ none := by
  intro fuel
  induction fuel with
  | zero =>
    intro input line col h
    cases input with
    | nil => simp [drain_go]
    | cons x t => simp at h
  | succ n ih =>
    intro input line col h
    cases input with
    | nil => simp [drain_go]
    | cons x t =>
      rw [drain_go]
      cases hres : read_token (x :: t) line col with
      | mk res state =>
        obtain ⟨rest2, line2, col2⟩ := state
        have hlen : rest2.length ≤ n := by
          have := read_token_shrinks (x :: t) line col (by simp)
          rw [hres] at this
          simp only [List.length_cons] at this h
          omega
        cases res with
        | ok tok =>
          have hne := ih rest2 line2 col2 hlen
          cases hgo : drain_go n rest2 line2 col2 with
          | none => exact absurd hgo hne
          | some r =>
            cases r with
            | ok toks => dsimp only; rw [hgo]; simp
            | error e => dsimp only; rw [hgo]; simp
        | error e => simp

/-- `drain_tokens` never runs out of fuel: the loop always terminates with a
token list or an error. -/
theorem drain_tokens_total (input : List Char) (line col : Nat) :
    drain_tokens input line col ≠ none :=
  drain_go_complete input.length input line col (le_refl _)

/-- A maximal digit run whose value exceeds `i32::MAX` makes `read_token`
return `InvalidNumberToken` with the raw digit string; the error is returned
before the shared column increment, so the final column is the last consumed
digit's column. -/
theorem read_token_overflow (d : Char) (run rest : List Char) (line col : Nat)
    (hd : is_ascii_digit d = true)
    (hrun : ∀ x ∈ run, is_ascii_digit x = true)
    (hrest : ∀ y, rest.head? = some y → is_ascii_digit y = false)
    (hbig : 2147483647 < digits_value (d :: run)) :
    read_token (d :: (run ++ rest)) line col =
      (Except.error (TokenError.InvalidNumberToken (String.mk (d :: run))),
        rest, line, col + run.length) := by
  obtain ⟨ht, hdr⟩ := takeWhile_dropWhile_append run rest hrun hrest
  rw [read_token_digit d (run ++ rest) line col hd, ht, hdr]
  have hp : parse_i32 (d :: run) = none := by
    rw [parse_i32, if_neg (Nat.not_le_of_lt hbig)]
  rw [hp]

/-! ### Claims -/

/-- Claim C1: draining the scanner on the input `"( ) { }\n+ - * /\n. ! -420"`
starting at line 1, column 1 produces exactly the twelve tokens
LeftParen@(1,1), RightParen@(1,3), LeftBrace@(1,5), RightBrace@(1,7),
Plus@(2,1), Minus@(2,3), Star@(2,5), Slash@(2,7), Dot@(3,1), Bang@(3,3),
Minus@(3,5), Int(420)@(3,6), with no error returned. -/
theorem claim_c1_single_character_tokens :
    drain_tokens ("( ) { }\n+ - * /\n. ! -420".toList) 1 1 =
      some (Except.ok [
        ⟨TokenType.Operator OperatorTokenType.LeftParen, 1, 1⟩,
        ⟨TokenType.Operator OperatorTokenType.RightParen, 1, 3⟩,
        ⟨TokenType.Operator OperatorTokenType.LeftBrace, 1, 5⟩,
        ⟨TokenType.Operator OperatorTokenType.RightBrace, 1, 7⟩,
        ⟨TokenType.Operator OperatorTokenType.Plus, 2, 1⟩,
        ⟨TokenType.Operator OperatorTokenType.Minus, 2, 3⟩,
        ⟨TokenType.Operator OperatorTokenType.Star, 2, 5⟩,
        ⟨TokenType.Operator OperatorTokenType.Slash, 2, 7⟩,
        ⟨TokenType.Operator OperatorTokenType.Dot, 3, 1⟩,
        ⟨TokenType.Operator OperatorTokenType.Bang, 3, 3⟩,
        ⟨TokenType.Operator OperatorTokenType.Minus, 3, 5⟩,
        ⟨TokenType.Literal (LiteralTokenType.Int 420), 3, 6⟩]) := rfl

/-- Claim C2: on `"1 10 1234 -420"` the scanner produces Int(1)@(1,1),
Int(10)@(1,3), Int(1234)@(1,6), Minus@(1,11), Int(420)@(1,12); and in
general a `-` character always yields a lone `Minus` operator token — it is
never fused into a following numeric literal, whose digits form a separate
`Int` token. -/
theorem claim_c2_no_minus_fusion :
    drain_tokens ("1 10 1234 -420".toList) 1 1 =
      some (Except.ok [
        ⟨TokenType.Literal (LiteralTokenType.Int 1), 1, 1⟩,
        ⟨TokenType.Literal (LiteralTokenType.Int 10), 1, 3⟩,
        ⟨TokenType.Literal (LiteralTokenType.Int 1234), 1, 6⟩,
        ⟨TokenType.Operator OperatorTokenType.Minus, 1, 11⟩,
        ⟨TokenType.Literal (LiteralTokenType.Int 420), 1, 12⟩])
    ∧ ∀ (rest : List Char) (line col : Nat),
        read_token ('-' :: rest) line col =
          (Except.ok ⟨TokenType.Operator OperatorTokenType.Minus, line, col⟩,
            rest, line, col + 1) :=
  ⟨rfl, fun rest line col => read_token_minus rest line col⟩

/-- Claim C5 counterexample: the scanner has no `Keep` keyword.  The exact
identifier `"k"` lexes to the `Unrecognized` fallback (the token produced
when the accumulated text matches no keyword), not to a Keep literal, and so
does `"keep"`; draining `"2d4k6"` therefore yields `Unrecognized "k"` as its
fourth token rather than a short-form Keep. -/
theorem counterexample_c5_no_keep_keyword :
    (read_token ("k".toList) 1 1).1 =
      Except.ok ⟨TokenType.Literal (LiteralTokenType.Unrecognized "k"), 1, 1⟩
    ∧ (read_token ("keep".toList) 1 1).1 =
      Except.ok ⟨TokenType.Literal (LiteralTokenType.Unrecognized "keep"), 1, 1⟩
    ∧ drain_tokens ("2d4k6".toList) 1 1 =
      some (Except.ok [
        ⟨TokenType.Literal (LiteralTokenType.Int 2), 1, 1⟩,
        ⟨TokenType.Literal (LiteralTokenType.Die false), 1, 2⟩,
        ⟨TokenType.Literal (LiteralTokenType.Int 4), 1, 3⟩,
        ⟨TokenType.Literal (LiteralTokenType.Unrecognized "k"), 1, 4⟩,
        ⟨TokenType.Literal (LiteralTokenType.Int 6), 1, 5⟩]) :=
  ⟨rfl, rfl, rfl⟩

/-- Claim C5 (amended): the keyword table of `read_token` resolves exactly
two identifiers — `d` to short-form Die and `die` to long-form Die; the
identifiers `k`, `keep`, `drop`, `explode` and `emphasis` match no keyword
and become `Unrecognized` tokens; draining `"2d4k6"` decomposes it into
Int(2), Die(short), Int(4), Unrecognized("k"), Int(6). -/
theorem claim_c5_keyword_table :
    (read_token ("d".toList) 1 1).1 =
      Except.ok ⟨TokenType.Literal (LiteralTokenType.Die false), 1, 1⟩
    ∧ (read_token ("die".toList) 1 1).1 =
      Except.ok ⟨TokenType.Literal (LiteralTokenType.Die true), 1, 1⟩
    ∧ (read_token ("k".toList) 1 1).1 =
      Except.ok ⟨TokenType.Literal (LiteralTokenType.Unrecognized "k"), 1, 1⟩
    ∧ (read_token ("keep".toList) 1 1).1 =
      Except.ok ⟨TokenType.Literal (LiteralTokenType.Unrecognized "keep"), 1, 1⟩
    ∧ (read_token ("drop".toList) 1 1).1 =
      Except.ok ⟨TokenType.Literal (LiteralTokenType.Unrecognized "drop"), 1, 1⟩
    ∧ (read_token ("explode".toList) 1 1).1 =
      Except.ok ⟨TokenType.Literal (LiteralTokenType.Unrecognized "explode"), 1, 1⟩
    ∧ (read_token ("emphasis".toList) 1 1).1 =
      Except.ok ⟨TokenType.Literal (LiteralTokenType.Unrecognized "emphasis"), 1, 1⟩
    ∧ drain_tokens ("2d4k6".toList) 1 1 =
      some (Except.ok [
        ⟨TokenType.Literal (LiteralTokenType.Int 2), 1, 1⟩,
        ⟨TokenType.Literal (LiteralTokenType.Die false), 1, 2⟩,
        ⟨TokenType.Literal (LiteralTokenType.Int 4), 1, 3⟩,
        ⟨TokenType.Literal (LiteralTokenType.Unrecognized "k"), 1, 4⟩,
        ⟨TokenType.Literal (LiteralTokenType.Int 6), 1, 5⟩]) :=
  ⟨rfl, rfl, rfl, rfl, rfl, rfl, rfl, rfl⟩

/-- Claim C3: an input beginning with a maximal ASCII digit run whose value
exceeds the signed 32-bit range makes `read_token` return
`InvalidNumberToken` carrying exactly the consumed digit string; no `Int`
token with a clamped or wrapped value is produced. -/
theorem claim_c3_overflow_error (d : Char) (run rest : List Char) (line col : Nat)
    (hd : is_ascii_digit d = true)
    (hrun : ∀ x ∈ run, is_ascii_digit x = true)
    (hrest : ∀ y, rest.head? = some y → is_ascii_digit y = false)
    (hbig : 2147483647 < digits_value (d :: run)) :
    read_token (d :: (run ++ rest)) line col =
      (Except.error (TokenError.InvalidNumberToken (String.mk (d :: run))),
        rest, line, col + run.length) :=
  read_token_overflow d run rest line col hd hrun hrest hbig

/-- Claim C3 witness: the digit run `99999999999` overflows and produces the
error carrying that exact string. -/
theorem claim_c3_overflow_error_witness :
    (is_ascii_digit '9' = true
      ∧ (∀ x ∈ List.replicate 10 '9', is_ascii_digit x = true)
      ∧ 2147483647 < digits_value ('9' :: List.replicate 10 '9'))
    ∧ read_token ('9' :: (List.replicate 10 '9' ++ [])) 1 1 =
      (Except.error (TokenError.InvalidNumberToken
          (String.mk ('9' :: List.replicate 10 '9'))), [], 1, 1 + (List.replicate 10 '9').length) :=
  ⟨⟨by decide, by decide, by decide⟩,
    claim_c3_overflow_error '9' (List.replicate 10 '9') [] 1 1 (by decide) (by decide)
      (fun y h => nomatch h) (by decide)⟩

/-- Claim C4: on an input beginning with an ASCII letter, `read_token` never
errors: it returns an ok token positioned at the start of the run, and when
the greedily accumulated maximal run of letters and underscores matches
neither keyword the token is `Unrecognized` carrying that text, consuming
exactly the run. -/
theorem claim_c4_alpha_never_errors (a : Char) (rest : List Char) (line col : Nat)
    (ha : is_ascii_alphabetic a = true) :
    (∃ tok : Token, (read_token (a :: rest) line col).1 = Except.ok tok
      ∧ tok.line = line ∧ tok.column = col)
    ∧ (String.mk (a :: rest.takeWhile is_keyword_character) ≠ "d" →
       String.mk (a :: rest.takeWhile is_keyword_character) ≠ "die" →
       read_token (a :: rest) line col =
         (Except.ok ⟨TokenType.Literal (LiteralTokenType.Unrecognized
             (String.mk (a :: rest.takeWhile is_keyword_character))), line, col⟩,
           rest.dropWhile is_keyword_character, line,
           col + (rest.takeWhile is_keyword_character).length + 1)) := by
  rw [read_token_alpha a rest line col ha]
  constructor
  · exact ⟨_, rfl, rfl, rfl⟩
  · intro h1 h2
    rw [if_neg h1, if_neg h2]

/-- Claim C4 witness: `"xy_!"` lexes to `Unrecognized "xy_"` at the starting
position, consuming the letter-and-underscore run. -/
theorem claim_c4_alpha_never_errors_witness :
    is_ascii_alphabetic 'x' = true
    ∧ ((∃ tok : Token, (read_token ('x' :: ['y', '_', '!']) 1 1).1 = Except.ok tok
        ∧ tok.line = 1 ∧ tok.column = 1)
      ∧ (String.mk ('x' :: ['y', '_', '!'].takeWhile is_keyword_character) ≠ "d" →
         String.mk ('x' :: ['y', '_', '!'].takeWhile is_keyword_character) ≠ "die" →
         read_token ('x' :: ['y', '_', '!']) 1 1 =
           (Except.ok ⟨TokenType.Literal (LiteralTokenType.Unrecognized
               (String.mk ('x' :: ['y', '_', '!'].takeWhile is_keyword_character))), 1, 1⟩,
             ['y', '_', '!'].dropWhile is_keyword_character, 1,
             1 + (['y', '_', '!'].takeWhile is_keyword_character).length + 1))) :=
  ⟨by decide, claim_c4_alpha_never_errors 'x' ['y', '_', '!'] 1 1 (by decide)⟩

/-- Claim C6: when the first non-whitespace character of the input is neither
one of the ten punctuation characters nor an ASCII digit nor an ASCII letter,
`read_token` returns `UnsupportedToken` carrying exactly that one character
as a string, and the character has been consumed: the remaining cursor is
exactly what follows it. -/
theorem claim_c6_unsupported_character (ws : List Char) (c : Char) (rest : List Char)
    (line col : Nat)
    (hws : ∀ x ∈ ws, x = ' ' ∨ x = '\n')
    (hpunct : c ∉ [' ', '\n', '(', ')', '{', '}', '+', '-', '*', '/', '.', '!'])
    (hd : is_ascii_digit c = false) (ha : is_ascii_alphabetic c = false) :
    ∃ line2 col2, read_token (ws ++ c :: rest) line col =
      (Except.error (TokenError.UnsupportedToken (String.mk [c])), rest, line2, col2) := by
  obtain ⟨l2, c2, heq⟩ := read_token_ws_skip ws line col (c :: rest) hws
  exact ⟨l2, c2, by rw [heq, read_token_other c rest l2 c2 hpunct hd ha]⟩

/-- Claim C6 witness: `" @x"` errors with `UnsupportedToken "@"` and the `@`
is consumed, leaving only `x`. -/
theorem claim_c6_unsupported_character_witness :
    ((∀ x ∈ [' '], x = ' ' ∨ x = '\n')
      ∧ '@' ∉ [' ', '\n', '(', ')', '{', '}', '+', '-', '*', '/', '.', '!']
      ∧ is_ascii_digit '@' = false ∧ is_ascii_alphabetic '@' = false)
    ∧ ∃ line2 col2, read_token ([' '] ++ '@' :: ['x']) 1 1 =
      (Except.error (TokenError.UnsupportedToken (String.mk ['@'])), ['x'], line2, col2) :=
  ⟨⟨by decide, by decide, by decide, by decide⟩,
    claim_c6_unsupported_character [' '] '@' ['x'] 1 1 (by decide) (by decide)
      (by decide) (by decide)⟩

/-- Claim C7 counterexample: on input `"@"` starting at line 1, column 1,
`read_token` returns `UnsupportedToken` but the final column is still 1, the
offending character's own column — it has not been advanced past the
consumed offending character (which would require column 2). -/
theorem counterexample_c7_column_not_past_error :
    read_token ['@'] 1 1 = (Except.error (TokenError.UnsupportedToken "@"), [], 1, 1)
    ∧ ¬ 1 + 1 ≤ (read_token ['@'] 1 1).2.2.2 :=
  ⟨rfl, by decide⟩

/-- Claim C7 (amended): on error returns the shared final column increment is
skipped, so the column counter has been advanced past every consumed
character except the last one: when `UnsupportedToken` is returned the
column still equals the offending character's own column, and when
`InvalidNumberToken` is returned it equals the column of the last consumed
digit (start column plus the length of the extra digits). -/
theorem claim_c7_column_on_error (c : Char) (rest : List Char)
    (d : Char) (run rest2 : List Char) (line col line2 col2 : Nat)
    (hpunct : c ∉ [' ', '\n', '(', ')', '{', '}', '+', '-', '*', '/', '.', '!'])
    (hd : is_ascii_digit c = false) (ha : is_ascii_alphabetic c = false)
    (hdig : is_ascii_digit d = true)
    (hrun : ∀ x ∈ run, is_ascii_digit x = true)
    (hrest : ∀ y, rest2.head? = some y → is_ascii_digit y = false)
    (hbig : 2147483647 < digits_value (d :: run)) :
    read_token (c :: rest) line col =
      (Except.error (TokenError.UnsupportedToken (String.mk [c])), rest, line, col)
    ∧ read_token (d :: (run ++ rest2)) line2 col2 =
      (Except.error (TokenError.InvalidNumberToken (String.mk (d :: run))),
        rest2, line2, col2 + run.length) :=
  ⟨read_token_other c rest line col hpunct hd ha,
    read_token_overflow d run rest2 line2 col2 hdig hrun hrest hbig⟩

/-- Claim C7 witness: `"@"` errors with the column left at 1, and
`99999999999` errors with the column left at 11, the last digit's column. -/
theorem claim_c7_column_on_error_witness :
    ('@' ∉ [' ', '\n', '(', ')', '{', '}', '+', '-', '*', '/', '.', '!']
      ∧ is_ascii_digit '@' = false ∧ is_ascii_alphabetic '@' = false
      ∧ is_ascii_digit '9' = true
      ∧ 2147483647 < digits_value ('9' :: List.replicate 10 '9'))
    ∧ read_token ('@' :: []) 1 1 =
      (Except.error (TokenError.UnsupportedToken (String.mk ['@'])), [], 1, 1)
    ∧ read_token ('9' :: (List.replicate 10 '9' ++ [])) 1 1 =
      (Except.error (TokenError.InvalidNumberToken (String.mk ('9' :: List.replicate 10 '9'))),
        [], 1, 1 + (List.replicate 10 '9').length) :=
  ⟨⟨by decide, by decide, by decide, by decide, by decide⟩,
    claim_c7_column_on_error '@' [] '9' (List.replicate 10 '9') [] 1 1 1 1
      (by decide) (by decide) (by decide) (by decide) (by decide)
      (fun y h => nomatch h) (by decide)⟩

/-- Claim C8: an input consisting only of whitespace (in particular the empty
input) exhausts the cursor and yields an `Eof` token at the current position
with the state unchanged, and a further call on the exhausted cursor returns
the same `Eof` token again — never an error. -/
theorem claim_c8_eof_repeats (ws : List Char) (line col : Nat)
    (hws : ∀ x ∈ ws, x = ' ' ∨ x = '\n') :
    ∃ line2 col2,
      read_token ws line col =
        (Except.ok ⟨TokenType.Operator OperatorTokenType.Eof, line2, col2⟩, [], line2, col2)
      ∧ read_token [] line2 col2 =
        (Except.ok ⟨TokenType.Operator OperatorTokenType.Eof, line2, col2⟩, [], line2, col2) := by
  obtain ⟨l2, c2, heq⟩ := read_token_ws_skip ws line col [] hws
  rw [List.append_nil] at heq
  exact ⟨l2, c2, by rw [heq, read_token_nil], read_token_nil l2 c2⟩

/-- Claim C8 witness: trailing whitespace `" \n "` exhausts into an `Eof`
token, and a repeated call still returns `Eof`. -/
theorem claim_c8_eof_repeats_witness :
    (∀ x ∈ [' ', '\n', ' '], x = ' ' ∨ x = '\n')
    ∧ ∃ line2 col2,
      read_token [' ', '\n', ' '] 1 1 =
        (Except.ok ⟨TokenType.Operator OperatorTokenType.Eof, line2, col2⟩, [], line2, col2)
      ∧ read_token [] line2 col2 =
        (Except.ok ⟨TokenType.Operator OperatorTokenType.Eof, line2, col2⟩, [], line2, col2) :=
  ⟨by decide, claim_c8_eof_repeats [' ', '\n', ' '] 1 1 (by decide)⟩

/-- Claim C9: a token produced from a digit run or an identifier run carries
the column of the run's first character (the column value at the moment that
character was consumed), and for a multi-character run this is never the
last character's column. -/
theorem claim_c9_column_is_first (d a : Char) (restd resta : List Char)
    (line col line2 col2 : Nat)
    (hd : is_ascii_digit d = true) (ha : is_ascii_alphabetic a = true) :
    (∀ tok : Token, (read_token (d :: restd) line col).1 = Except.ok tok →
      tok.column = col
      ∧ (restd.takeWhile is_ascii_digit ≠ [] →
          tok.column ≠ col + (restd.takeWhile is_ascii_digit).length))
    ∧ (∀ tok : Token, (read_token (a :: resta) line2 col2).1 = Except.ok tok →
      tok.column = col2
      ∧ (resta.takeWhile is_keyword_character ≠ [] →
          tok.column ≠ col2 + (resta.takeWhile is_keyword_character).length)) := by
  constructor
  · rw [read_token_digit d restd line col hd]
    cases hp : parse_i32 (d :: restd.takeWhile is_ascii_digit) with
    | some v =>
      intro tok htok
      have : (⟨TokenType.Literal (LiteralTokenType.Int v), line, col⟩ : Token) = tok := by
        injection htok
      subst this
      refine ⟨rfl, fun hne habs => ?_⟩
      have hpos : 0 < (restd.takeWhile is_ascii_digit).length := List.length_pos.mpr hne
      have habs2 : col = col + (restd.takeWhile is_ascii_digit).length := habs
      omega
    | none =>
      intro tok htok
      simp at htok
  · rw [read_token_alpha a resta line2 col2 ha]
    intro tok htok
    have : (⟨TokenType.Literal
        (if String.mk (a :: resta.takeWhile is_keyword_character) = "d" then
          LiteralTokenType.Die false
        else if String.mk (a :: resta.takeWhile is_keyword_character) = "die" then
          LiteralTokenType.Die true
        else LiteralTokenType.Unrecognized
          (String.mk (a :: resta.takeWhile is_keyword_character))),
        line2, col2⟩ : Token) = tok := by
      injection htok
    subst this
    refine ⟨rfl, fun hne habs => ?_⟩
    have hpos : 0 < (resta.takeWhile is_keyword_character).length := List.length_pos.mpr hne
    have habs2 : col2 = col2 + (resta.takeWhile is_keyword_character).length := habs
    omega

/-- Claim C9 witness: `"123"` lexes to a token at column 1, not column 3, and
`"abc"` likewise at its first character's column. -/
theorem claim_c9_column_is_first_witness :
    (is_ascii_digit '1' = true ∧ is_ascii_alphabetic 'a' = true)
    ∧ ((∀ tok : Token, (read_token ('1' :: ['2', '3']) 1 1).1 = Except.ok tok →
        tok.column = 1
        ∧ (['2', '3'].takeWhile is_ascii_digit ≠ [] →
            tok.column ≠ 1 + (['2', '3'].takeWhile is_ascii_digit).length))
      ∧ (∀ tok : Token, (read_token ('a' :: ['b', 'c']) 1 1).1 = Except.ok tok →
        tok.column = 1
        ∧ (['b', 'c'].takeWhile is_keyword_character ≠ [] →
            tok.column ≠ 1 + (['b', 'c'].takeWhile is_keyword_character).length))) :=
  ⟨⟨by decide, by decide⟩,
    claim_c9_column_is_first '1' 'a' ['2', '3'] ['b', 'c'] 1 1 1 1 (by decide) (by decide)⟩

/-- Claim C10: an underscore may not start an identifier run — an input whose
first character is `_` errors with `UnsupportedToken "_"` — but underscores
after a leading ASCII letter are consumed into one `Unrecognized` token
containing them. -/
theorem claim_c10_underscore_rules (rest : List Char) (a : Char) (k : Nat)
    (line col line2 col2 : Nat) (ha : is_ascii_alphabetic a = true) :
    read_token ('_' :: rest) line col =
      (Except.error (TokenError.UnsupportedToken "_"), rest, line, col)
    ∧ read_token (a :: List.replicate (k + 1) '_') line2 col2 =
      (Except.ok ⟨TokenType.Literal (LiteralTokenType.Unrecognized
          (String.mk (a :: List.replicate (k + 1) '_'))), line2, col2⟩,
        [], line2, col2 + (k + 1) + 1) := by
  constructor
  · rfl
  · have hrun : ∀ x ∈ List.replicate (k + 1) '_', is_keyword_character x = true := by
      intro x hx
      rw [List.eq_of_mem_replicate hx]
      decide
    obtain ⟨ht, hdr⟩ :=
      takeWhile_dropWhile_append (List.replicate (k + 1) '_') [] hrun (fun y h => nomatch h)
    rw [List.append_nil] at ht hdr
    rw [read_token_alpha a (List.replicate (k + 1) '_') line2 col2 ha, ht, hdr]
    have hne1 : String.mk (a :: List.replicate (k + 1) '_') ≠ "d" := by
      intro h
      have h2 : a :: List.replicate (k + 1) '_' = ['d'] := congrArg String.data h
      have h3 := congrArg List.length h2
      simp [List.length_replicate] at h3
    have hne2 : String.mk (a :: List.replicate (k + 1) '_') ≠ "die" := by
      intro h
      have h2 : a :: List.replicate (k + 1) '_' = ['d', 'i', 'e'] := congrArg String.data h
      rw [List.replicate_succ] at h2
      injection h2 with ha2 h2
      injection h2 with hb h2
      exact absurd hb (by decide)
    rw [if_neg hne1, if_neg hne2]
    simp [List.length_replicate]

/-- Claim C10 witness: `"_a"` errors with `UnsupportedToken "_"`, while
`"x_"` lexes to the single token `Unrecognized "x_"`. -/
theorem claim_c10_underscore_rules_witness :
    is_ascii_alphabetic 'x' = true
    ∧ read_token ('_' :: ['a']) 1 1 =
      (Except.error (TokenError.UnsupportedToken "_"), ['a'], 1, 1)
    ∧ read_token ('x' :: List.replicate (0 + 1) '_') 1 1 =
      (Except.ok ⟨TokenType.Literal (LiteralTokenType.Unrecognized
          (String.mk ('x' :: List.replicate (0 + 1) '_'))), 1, 1⟩,
        [], 1, 1 + (0 + 1) + 1) :=
  ⟨by decide, claim_c10_underscore_rules ['a'] 'x' 0 1 1 1 1 (by decide)⟩
